import Mathlib

/-!
Verification of the frxp repository (fractal field computation and its
React frontend data pipeline) against its natural-language specification.

The embedding below translates, as directly as the logic allows:
  - the polar iteration-kernel step and derivative recurrence documented in
    `src/README.md` (the Numba kernel notes), over the real numbers;
  - `createGridFromFlatArray`, `fetchFractalMap`, `fetchFractalImg` and the
    `calculate_map` polling loop from
    `src/frontend/fractal-app/src/App.jsx`;
  - the Simplex-noise generator and `createFractalMountains` from
    `src/frontend/fractal-app/src/utils/noiseUtils.js`, with JS doubles
    idealized as exact rationals (`Math.sqrt(3.0)` is embedded as the exact
    rational value of that IEEE-754 double, and `Date.now()` becomes an
    explicit natural-number input, since a shallow embedding makes ambient
    state explicit);
  - the vertex-height (skirt) logic of
    `src/frontend/fractal-app/src/components/FractalMesh.jsx` and of the
    inline mesh construction in `src/frontend/fractal-app/src/Frxp3D.jsx`,
    over a JS-number type with NaN and infinities.
-/

/- ## Iteration kernel step (src/README.md, polar iteration notes)

The kernel notes compute, for the current orbit value `(zr, zi)` and the
constant `(c_real, c_imag)`:
  `r_z = np.sqrt(magnitude_sq)` with `magnitude_sq = zr*zr + zi*zi`,
  `theta_z = np.arctan2(zi, zr)`,
  `new_r = r_z**power`, `new_theta = power * theta_z`,
  `next_zr = new_r * np.cos(new_theta) + c_real`,
  `next_zi = new_r * np.sin(new_theta) + c_imag`. -/

/-- Two-argument arctangent. `np.arctan2(y, x)` returns the full-circle
argument of the point `(x, y)`, with range `(-pi, pi]`; this is exactly
`Complex.arg` of the complex number `x + y*I`. -/
noncomputable def atan2 (y x : ℝ) : ℝ := Complex.arg ⟨x, y⟩

/-- One iteration-kernel step `z ↦ z^power + c` in polar form, translated
from the `next_zr` / `next_zi` lines of the kernel notes in
`src/README.md`. -/
noncomputable def kernelStep (power : ℕ) (zr zi c_real c_imag : ℝ) : ℝ × ℝ :=
  let r_z := Real.sqrt (zr * zr + zi * zi)
  let theta_z := atan2 zi zr
  let new_r := r_z ^ power
  let new_theta := (power : ℝ) * theta_z
  (new_r * Real.cos new_theta + c_real, new_r * Real.sin new_theta + c_imag)

/-- One derivative-recurrence step, translated from the derivative notes in
`src/README.md`: `rpow = r^(P-1)`, `thetapow = (P-1)*theta`,
`zpr = rpow*cos(thetapow)`, `zpi = rpow*sin(thetapow)`,
`next_dzr = P*(zpr*dzr - zpi*dzi) + 1`,
`next_dzi = P*(zpr*dzi + zpi*dzr)`. -/
noncomputable def derivStep (power : ℕ) (zr zi dzr dzi : ℝ) : ℝ × ℝ :=
  let r_z := Real.sqrt (zr * zr + zi * zi)
  let theta_z := atan2 zi zr
  let rpow := r_z ^ (power - 1)
  let thetapow := ((power - 1 : ℕ) : ℝ) * theta_z
  let zpr := rpow * Real.cos thetapow
  let zpi := rpow * Real.sin thetapow
  ((power : ℝ) * (zpr * dzr - zpi * dzi) + 1,
   (power : ℝ) * (zpr * dzi + zpi * dzr))

/-- Modelled from the spec: the derivative pair `(dzr, dzi)` is
"initialized to `(1, 0)`"; the initialization itself lives in the backend
kernel `fractal_calcs.py`, which is not part of the provided sources. -/
def derivInit : ℝ × ℝ := (1, 0)

/-- De Moivre in Cartesian clothing: the n-th power of a complex number is
its modulus to the n, times `cos` and `sin` of n times its argument. -/
theorem pow_polar (z : ℂ) (n : ℕ) :
    z ^ n = ((Complex.abs z ^ n : ℝ) : ℂ) *
      (((Real.cos (n * Complex.arg z) : ℝ) : ℂ) +
        ((Real.sin (n * Complex.arg z) : ℝ) : ℂ) * Complex.I) := by
  conv_lhs => rw [← Complex.abs_mul_cos_add_sin_mul_I z]
  rw [mul_pow, Complex.ofReal_cos, Complex.ofReal_sin,
    Complex.cos_add_sin_mul_I_pow]
  push_cast
  ring

/-- The modulus of `zr + zi*I` is the kernel's `r_z = sqrt(zr*zr + zi*zi)`. -/
theorem abs_mk_eq_sqrt (zr zi : ℝ) :
    Complex.abs ⟨zr, zi⟩ = Real.sqrt (zr * zr + zi * zi) := by
  rw [Complex.abs_apply, Complex.normSq_mk]

/-- Real part of a polar-form complex number plus a Cartesian constant. -/
theorem polar_add_re (a c s x y : ℝ) :
    (((a : ℝ) : ℂ) * (((c : ℝ) : ℂ) + ((s : ℝ) : ℂ) * Complex.I)
      + (⟨x, y⟩ : ℂ)).re = a * c + x := by
  simp [Complex.add_re, Complex.mul_re, Complex.add_im, Complex.mul_im]

/-- Imaginary part of a polar-form complex number plus a Cartesian
constant. -/
theorem polar_add_im (a c s x y : ℝ) :
    (((a : ℝ) : ℂ) * (((c : ℝ) : ℂ) + ((s : ℝ) : ℂ) * Complex.I)
      + (⟨x, y⟩ : ℂ)).im = a * s + y := by
  simp [Complex.add_re, Complex.mul_re, Complex.add_im, Complex.mul_im]

/-- Claim C2: for every current orbit value `(zr, zi)`, constant
`(c_real, c_imag)` and integer power at least 2, the polar iteration-kernel
step (using the full-circle `atan2`) returns exactly the real and imaginary
parts of the Cartesian value `z^power + c`. -/
theorem kernelStep_eq_cartesian (power : ℕ) (zr zi c_real c_imag : ℝ)
    (hp : 2 ≤ power) :
    kernelStep power zr zi c_real c_imag =
      ((((⟨zr, zi⟩ : ℂ) ^ power + ⟨c_real, c_imag⟩ : ℂ)).re,
       (((⟨zr, zi⟩ : ℂ) ^ power + ⟨c_real, c_imag⟩ : ℂ)).im) := by
  have h := pow_polar (⟨zr, zi⟩ : ℂ) power
  rw [abs_mk_eq_sqrt] at h
  have harg : Complex.arg ⟨zr, zi⟩ = atan2 zi zr := rfl
  rw [harg] at h
  show (Real.sqrt (zr * zr + zi * zi) ^ power *
          Real.cos ((power : ℝ) * atan2 zi zr) + c_real,
        Real.sqrt (zr * zr + zi * zi) ^ power *
          Real.sin ((power : ℝ) * atan2 zi zr) + c_imag) = _
  rw [h, polar_add_re, polar_add_im]

/-- Witness for C2 at the concrete input `z = 0`, `c = (1, 0)`,
`power = 2`: the step lands on `(1, 0)`, the parts of `0^2 + 1`. -/
theorem kernelStep_eq_cartesian_witness :
    2 ≤ 2 ∧ kernelStep 2 0 0 1 0 =
      ((((⟨0, 0⟩ : ℂ) ^ 2 + ⟨1, 0⟩ : ℂ)).re,
       (((⟨0, 0⟩ : ℂ) ^ 2 + ⟨1, 0⟩ : ℂ)).im) :=
  ⟨by norm_num, kernelStep_eq_cartesian 2 0 0 1 0 (by norm_num)⟩

/-- Real part of the complex derivative update
`n * (a * (cos + sin * I)) * dz + 1`. -/
theorem deriv_form_re (n : ℕ) (a c s x y : ℝ) :
    (((n : ℕ) : ℂ) * (((a : ℝ) : ℂ) *
        (((c : ℝ) : ℂ) + ((s : ℝ) : ℂ) * Complex.I)) * (⟨x, y⟩ : ℂ)
      + 1).re = (n : ℝ) * (a * c * x - a * s * y) + 1 := by
  simp [Complex.add_re, Complex.mul_re, Complex.add_im, Complex.mul_im]
  ring

/-- Imaginary part of the complex derivative update
`n * (a * (cos + sin * I)) * dz + 1`. -/
theorem deriv_form_im (n : ℕ) (a c s x y : ℝ) :
    (((n : ℕ) : ℂ) * (((a : ℝ) : ℂ) *
        (((c : ℝ) : ℂ) + ((s : ℝ) : ℂ) * Complex.I)) * (⟨x, y⟩ : ℂ)
      + 1).im = (n : ℝ) * (a * c * y + a * s * x) := by
  simp [Complex.add_re, Complex.mul_re, Complex.add_im, Complex.mul_im]
  ring

/-- Claim C3: the derivative pair starts at `(1, 0)`, and for every orbit
value `(zr, zi)`, derivative pair `(dzr, dzi)` and power at least 2, the
recurrence from the README notes computes exactly the real and imaginary
parts of the complex update `power * z^(power-1) * dz + 1`. -/
theorem derivStep_eq_cartesian :
    derivInit = (1, 0) ∧
    ∀ (power : ℕ) (zr zi dzr dzi : ℝ), 2 ≤ power →
      derivStep power zr zi dzr dzi =
        ((((power : ℕ) : ℂ) * (⟨zr, zi⟩ : ℂ) ^ (power - 1) *
            (⟨dzr, dzi⟩ : ℂ) + 1).re,
         (((power : ℕ) : ℂ) * (⟨zr, zi⟩ : ℂ) ^ (power - 1) *
            (⟨dzr, dzi⟩ : ℂ) + 1).im) := by
  refine ⟨rfl, fun power zr zi dzr dzi _ => ?_⟩
  have h := pow_polar (⟨zr, zi⟩ : ℂ) (power - 1)
  rw [abs_mk_eq_sqrt] at h
  have harg : Complex.arg ⟨zr, zi⟩ = atan2 zi zr := rfl
  rw [harg] at h
  show ((power : ℝ) *
          (Real.sqrt (zr * zr + zi * zi) ^ (power - 1) *
              Real.cos (((power - 1 : ℕ) : ℝ) * atan2 zi zr) * dzr -
            Real.sqrt (zr * zr + zi * zi) ^ (power - 1) *
              Real.sin (((power - 1 : ℕ) : ℝ) * atan2 zi zr) * dzi) + 1,
        (power : ℝ) *
          (Real.sqrt (zr * zr + zi * zi) ^ (power - 1) *
              Real.cos (((power - 1 : ℕ) : ℝ) * atan2 zi zr) * dzi +
            Real.sqrt (zr * zr + zi * zi) ^ (power - 1) *
              Real.sin (((power - 1 : ℕ) : ℝ) * atan2 zi zr) * dzr)) = _
  rw [h, deriv_form_re, deriv_form_im]

/-- Witness for C3 at the concrete input `z = (0, 1)`, `dz = (2, 0)`,
`power = 2`. -/
theorem derivStep_eq_cartesian_witness :
    derivInit = (1, 0) ∧ 2 ≤ 2 ∧
    derivStep 2 0 1 2 0 =
      ((((2 : ℕ) : ℂ) * (⟨0, 1⟩ : ℂ) ^ (2 - 1) * ((⟨2, 0⟩ : ℂ)) + 1).re,
       (((2 : ℕ) : ℂ) * (⟨0, 1⟩ : ℂ) ^ (2 - 1) * ((⟨2, 0⟩ : ℂ)) + 1).im) :=
  ⟨derivStep_eq_cartesian.1, by norm_num,
    derivStep_eq_cartesian.2 2 0 1 2 0 (by norm_num)⟩

/- ## Flat-array to grid conversion
(src/frontend/fractal-app/src/App.jsx, createGridFromFlatArray)

The API returns map data as a single continuous buffer; the component
rebuilds a 2D grid from it row by row. The JS flat array is embedded as an
index function, and the nested push loops as `List.range` maps. -/

/-- `createGridFromFlatArray(flatArray, width, height)` from `App.jsx`:
builds `height` rows of `width` cells, reading `flatArray[i*width + j]`. -/
def createGridFromFlatArray (flatArray : ℕ → ℚ) (width height : ℕ) :
    List (List ℚ) :=
  (List.range height).map fun i =>
    (List.range width).map fun j => flatArray (i * width + j)

/-- Reading cell `(i, j)` of a grid built as a `List.range` double map
returns the generating function at `(i, j)`. -/
theorem getD_range_map (f : ℕ → ℕ → ℚ) (h w i j : ℕ)
    (hi : i < h) (hj : j < w) :
    ((((List.range h).map fun y => (List.range w).map fun x => f y x).getD
        i []).getD j 0) = f i j := by
  have h1 : (((List.range h).map fun y =>
        (List.range w).map fun x => f y x).getD i []) =
      (List.range w).map fun x => f i x := by
    rw [List.getD_eq_getElem?_getD, List.getElem?_map, List.getElem?_range hi]
    rfl
  rw [h1, List.getD_eq_getElem?_getD, List.getElem?_map,
    List.getElem?_range hj]
  rfl

/-- Claim C6: for every flat array and positive dimensions,
`createGridFromFlatArray` returns a grid of `height` rows, each of `width`
cells, with `grid[i][j] = flatArray[i*width + j]` (row-major); with both
dimensions equal to `resolution` this is the `resolution x resolution`
grid of the fetched map's cells. -/
theorem createGridFromFlatArray_spec (flatArray : ℕ → ℚ) (width height : ℕ)
    (hw : 0 < width) (hh : 0 < height) :
    (createGridFromFlatArray flatArray width height).length = height ∧
    (∀ row ∈ createGridFromFlatArray flatArray width height,
       row.length = width) ∧
    (∀ i j, i < height → j < width →
       (((createGridFromFlatArray flatArray width height).getD i []).getD
          j 0) = flatArray (i * width + j)) := by
  refine ⟨by simp [createGridFromFlatArray], ?_, ?_⟩
  · intro row hrow
    simp only [createGridFromFlatArray, List.mem_map] at hrow
    obtain ⟨i, _, rfl⟩ := hrow
    simp
  · intro i j hi hj
    exact getD_range_map (fun i j => flatArray (i * width + j)) height width
      i j hi hj

/-- Witness for C6: a 2 x 2 grid over the identity flat array has the
claimed shape and entries. -/
theorem createGridFromFlatArray_spec_witness :
    (createGridFromFlatArray (fun k => (k : ℚ)) 2 2).length = 2 ∧
    (∀ row ∈ createGridFromFlatArray (fun k => (k : ℚ)) 2 2,
       row.length = 2) ∧
    (∀ i j, i < 2 → j < 2 →
       (((createGridFromFlatArray (fun k => (k : ℚ)) 2 2).getD i []).getD
          j 0) = ((i * 2 + j : ℕ) : ℚ)) :=
  createGridFromFlatArray_spec (fun k => (k : ℚ)) 2 2 (by decide) (by decide)

/- ## Task polling (src/frontend/fractal-app/src/App.jsx)

Both `loadFractalData` and `fetchFractalImg` poll
`GET task_status/<task_id>` up to `maxPolls = 60` times at one-second
intervals. The status JSON carries a `state` field (compared against the
strings `'SUCCESS'` and `'FAILURE'`) and a `status` field (the error
detail). The sequence of poll replies is embedded as a function from the
poll index; the one-second wall-clock interval between polls is ambient
real time and is outside the embedding. -/

/-- One `task_status` JSON reply: its `state` and `status` fields. -/
structure StatusReply where
  state : String
  status : String
deriving DecidableEq

/-- How a polling `for` loop ended: `break` at poll `i` after seeing
`'SUCCESS'`, a thrown calculation-failed error at poll `i` carrying the
reply's `status` detail, or falling off the end of the loop. -/
inductive LoopExit where
  | success (i : ℕ)
  | failure (detail : String) (i : ℕ)
  | exhausted
deriving DecidableEq

/-- The shared body of both polling `for` loops in `App.jsx`: at poll `i`,
break on `state === 'SUCCESS'`, throw on `state === 'FAILURE'`, otherwise
wait and poll again while attempts remain. -/
def pollLoopAux (replies : ℕ → StatusReply) : ℕ → ℕ → LoopExit
  | _, 0 => .exhausted
  | i, fuel + 1 =>
    if (replies i).state = "SUCCESS" then .success i
    else if (replies i).state = "FAILURE" then .failure (replies i).status i
    else pollLoopAux replies (i + 1) fuel

/-- `const maxPolls = 60` — both loops poll for up to 60 seconds. -/
def maxPolls : ℕ := 60

/-- A full polling loop starting at poll index 0. -/
def pollLoop (replies : ℕ → StatusReply) : LoopExit :=
  pollLoopAux replies 0 maxPolls

/-- Outcome of `loadFractalData`: proceeded to download the maps, or threw
an error message. -/
inductive LoadOutcome where
  | downloaded
  | error (msg : String)
deriving DecidableEq

/-- The polling phase of `loadFractalData` (the 202 branch): polls, then
throws `'Calculation did not complete in time.'` when the loop ended with
`taskState !== 'SUCCESS'`. -/
def loadPollPhase (replies : ℕ → StatusReply) : LoadOutcome :=
  match pollLoop replies with
  | .success _ => .downloaded
  | .failure d _ => .error ("Calculation failed: " ++ d)
  | .exhausted => .error "Calculation did not complete in time."

/-- `loadFractalData` up to the map downloads: the `calculate_map` response
status selects cache-hit (200), polling (202), a thrown API error (non-ok),
or a thrown invalid-status error. -/
def loadFractalData (calcStatus : ℕ) (calcError calcStatusField : String)
    (replies : ℕ → StatusReply) : LoadOutcome :=
  if calcStatus < 200 ∨ 300 ≤ calcStatus then
    .error ("API Error: " ++ calcError)
  else if calcStatus = 200 then .downloaded
  else if calcStatus = 202 then loadPollPhase replies
  else .error ("Invalid status from API: " ++ calcStatusField)

/-- Outcome of `fetchFractalImg`: the blob of a `get_map` PNG response, the
blob of the original non-200 response body (the task-id JSON of a 202, or
an error body), or a thrown error. -/
inductive ImgOutcome where
  | mapBlob
  | rawBlob
  | error (msg : String)
deriving DecidableEq

/-- `fetchFractalImg` from `App.jsx`: 200 blobs the response directly; 202
polls, refetching and blobbing the map on `'SUCCESS'` and throwing on
`'FAILURE'` — but after the loop exhausts its 60 attempts it falls through
and blobs the original 202 response instead of throwing. -/
def fetchFractalImg (status : ℕ) (replies : ℕ → StatusReply) : ImgOutcome :=
  if status = 200 then .mapBlob
  else if status = 202 then
    match pollLoop replies with
    | .success _ => .mapBlob
    | .failure d _ => .error ("Calculation failed: " ++ d)
    | .exhausted => .rawBlob
  else .rawBlob

/-- Claim C4 (code bug): on a task that is still `PENDING` for all 60
polls, `loadFractalData` does throw the timeout error, but
`fetchFractalImg` — whose own doc comment says it throws when polling
exceeds max attempts — instead falls through and blobs the original 202
task-id JSON response. -/
theorem fetchFractalImg_timeout_falls_through :
    loadFractalData 202 "" "" (fun _ => ⟨"PENDING", ""⟩) =
      LoadOutcome.error "Calculation did not complete in time." ∧
    fetchFractalImg 202 (fun _ => ⟨"PENDING", ""⟩) = ImgOutcome.rawBlob :=
  ⟨rfl, rfl⟩

/-- Where a polling loop started at `start` with `fuel` attempts breaks
with success: exactly at the first index whose reply state is `'SUCCESS'`,
provided no earlier index was terminal. -/
theorem pollLoopAux_success_iff (replies : ℕ → StatusReply) :
    ∀ (fuel start i : ℕ),
      pollLoopAux replies start fuel = LoopExit.success i ↔
        (start ≤ i ∧ i < start + fuel ∧ (replies i).state = "SUCCESS" ∧
         ∀ j, start ≤ j → j < i →
           ¬(replies j).state = "SUCCESS" ∧
           ¬(replies j).state = "FAILURE") := by
  intro fuel
  induction fuel with
  | zero =>
    intro start i
    constructor
    · intro h; exact absurd h (by simp [pollLoopAux])
    · rintro ⟨h1, h2, -⟩; omega
  | succ fuel ih =>
    intro start i
    by_cases hS : (replies start).state = "SUCCESS"
    · simp only [pollLoopAux, hS, if_true]
      constructor
      · intro h
        cases h
        exact ⟨le_refl _, by omega, hS, fun j hj1 hj2 => absurd hj2 (by omega)⟩
      · rintro ⟨h1, h2, h3, h4⟩
        have hi : i = start := by
          by_contra hne
          exact (h4 start (le_refl _) (by omega)).1 hS
        rw [hi]
    · by_cases hF : (replies start).state = "FAILURE"
      · have hstep : pollLoopAux replies start (fuel + 1) =
            (if (replies start).state = "SUCCESS" then LoopExit.success start
             else if (replies start).state = "FAILURE" then
               LoopExit.failure (replies start).status start
             else pollLoopAux replies (start + 1) fuel) := rfl
        rw [hstep, if_neg hS, if_pos hF]
        constructor
        · intro h; exact absurd h (by simp)
        · rintro ⟨h1, h2, h3, h4⟩
          rcases Nat.eq_or_lt_of_le h1 with hi | hlt
          · rw [← hi] at h3; exact absurd h3 hS
          · exact absurd hF (h4 start (le_refl _) hlt).2
      · simp only [pollLoopAux, hS, hF, if_false]
        rw [ih (start + 1) i]
        constructor
        · rintro ⟨h1, h2, h3, h4⟩
          refine ⟨by omega, by omega, h3, fun j hj1 hj2 => ?_⟩
          rcases Nat.eq_or_lt_of_le hj1 with hj | hlt
          · rw [← hj]; exact ⟨hS, hF⟩
          · exact h4 j (by omega) hj2
        · rintro ⟨h1, h2, h3, h4⟩
          have hne : ¬start = i := fun h => hS (h ▸ h3)
          exact ⟨by omega, by omega, h3, fun j hj1 hj2 => h4 j (by omega) hj2⟩

/-- Where a polling loop throws the calculation-failed error: exactly at
the first index whose reply state is `'FAILURE'`, carrying that reply's
`status` detail, provided no earlier index was terminal. -/
theorem pollLoopAux_failure_iff (replies : ℕ → StatusReply) :
    ∀ (fuel start i : ℕ) (d : String),
      pollLoopAux replies start fuel = LoopExit.failure d i ↔
        (start ≤ i ∧ i < start + fuel ∧ (replies i).state = "FAILURE" ∧
         d = (replies i).status ∧
         ∀ j, start ≤ j → j < i →
           ¬(replies j).state = "SUCCESS" ∧
           ¬(replies j).state = "FAILURE") := by
  intro fuel
  induction fuel with
  | zero =>
    intro start i d
    constructor
    · intro h; exact absurd h (by simp [pollLoopAux])
    · rintro ⟨h1, h2, -⟩; omega
  | succ fuel ih =>
    intro start i d
    by_cases hS : (replies start).state = "SUCCESS"
    · simp only [pollLoopAux, hS, if_true]
      constructor
      · intro h; exact absurd h (by simp)
      · rintro ⟨h1, h2, h3, h4, h5⟩
        rcases Nat.eq_or_lt_of_le h1 with hi | hlt
        · rw [← hi] at h3
          rw [hS] at h3
          exact absurd h3 (by decide)
        · exact absurd hS (h5 start (le_refl _) hlt).1
    · by_cases hF : (replies start).state = "FAILURE"
      · have hstep : pollLoopAux replies start (fuel + 1) =
            (if (replies start).state = "SUCCESS" then LoopExit.success start
             else if (replies start).state = "FAILURE" then
               LoopExit.failure (replies start).status start
             else pollLoopAux replies (start + 1) fuel) := rfl
        rw [hstep, if_neg hS, if_pos hF]
        constructor
        · intro h
          cases h
          exact ⟨le_refl _, by omega, hF, rfl,
            fun j hj1 hj2 => absurd hj2 (by omega)⟩
        · rintro ⟨h1, h2, h3, h4, h5⟩
          rcases Nat.eq_or_lt_of_le h1 with hi | hlt
          · rw [← hi] at h3 h4
            rw [← hi, h4]
          · exact absurd hF (h5 start (le_refl _) hlt).2
      · simp only [pollLoopAux, hS, hF, if_false]
        rw [ih (start + 1) i d]
        constructor
        · rintro ⟨h1, h2, h3, h4, h5⟩
          refine ⟨by omega, by omega, h3, h4, fun j hj1 hj2 => ?_⟩
          rcases Nat.eq_or_lt_of_le hj1 with hj | hlt
          · rw [← hj]; exact ⟨hS, hF⟩
          · exact h5 j (by omega) hj2
        · rintro ⟨h1, h2, h3, h4, h5⟩
          have hne : ¬start = i := fun h => hF (h ▸ h3)
          exact ⟨by omega, by omega, h3, h4,
            fun j hj1 hj2 => h5 j (by omega) hj2⟩

/-- Modelled from the spec: the task state machine is
`Pending → Running → {Succeeded, Failed}`; the server-side task code is
not part of the provided sources. -/
inductive TaskState where
  | pending
  | running
  | succeeded
  | failed
deriving DecidableEq

/-- Modelled from the spec: `GET task_status/<task_id>` returns
`{state: Pending|Running|Succeeded|Failed, error?}`; on the wire the
client receives the states in the upper-case form it compares against,
with success state `"SUCCESS"` and failure state `"FAILURE"`. -/
def TaskState.wire : TaskState → String
  | .pending => "PENDING"
  | .running => "RUNNING"
  | .succeeded => "SUCCESS"
  | .failed => "FAILURE"

/-- The reply stream a poller sees for a task whose state over time is
`st`, with error detail field `det`. -/
def wireReplies (st : ℕ → TaskState) (det : ℕ → String) :
    ℕ → StatusReply :=
  fun i => ⟨(st i).wire, det i⟩

/-- A wire state reads `"SUCCESS"` exactly for the `Succeeded` state. -/
theorem wire_success_iff (s : TaskState) :
    s.wire = "SUCCESS" ↔ s = TaskState.succeeded := by
  cases s <;> simp [TaskState.wire]

/-- A wire state reads `"FAILURE"` exactly for the `Failed` state. -/
theorem wire_failure_iff (s : TaskState) :
    s.wire = "FAILURE" ↔ s = TaskState.failed := by
  cases s <;> simp [TaskState.wire]

/-- Claim C5: over the protocol states Pending/Running/Succeeded/Failed,
the client polling loops break and proceed to the map download exactly
when a poll returns the success state (with no earlier terminal poll), and
throw an error carrying the reported `status` detail exactly when a poll
returns the failure state; this drives both `loadFractalData` (downloaded
outcome) and `fetchFractalImg` (map-blob outcome). -/
theorem pollLoop_protocol_spec (st : ℕ → TaskState) (det : ℕ → String) :
    (∀ i, pollLoop (wireReplies st det) = LoopExit.success i ↔
       (i < maxPolls ∧ st i = TaskState.succeeded ∧
        ∀ j, j < i → ¬st j = TaskState.succeeded ∧
          ¬st j = TaskState.failed)) ∧
    (∀ i d, pollLoop (wireReplies st det) = LoopExit.failure d i ↔
       (i < maxPolls ∧ st i = TaskState.failed ∧ d = det i ∧
        ∀ j, j < i → ¬st j = TaskState.succeeded ∧
          ¬st j = TaskState.failed)) ∧
    (loadPollPhase (wireReplies st det) = LoadOutcome.downloaded ↔
       ∃ i, pollLoop (wireReplies st det) = LoopExit.success i) ∧
    (fetchFractalImg 202 (wireReplies st det) = ImgOutcome.mapBlob ↔
       ∃ i, pollLoop (wireReplies st det) = LoopExit.success i) ∧
    (∀ i d, pollLoop (wireReplies st det) = LoopExit.failure d i →
       loadPollPhase (wireReplies st det) =
         LoadOutcome.error ("Calculation failed: " ++ d) ∧
       fetchFractalImg 202 (wireReplies st det) =
         ImgOutcome.error ("Calculation failed: " ++ d)) := by
  refine ⟨?_, ?_, ?_, ?_, ?_⟩
  · intro i
    rw [pollLoop, pollLoopAux_success_iff]
    simp only [wireReplies, wire_success_iff, wire_failure_iff]
    constructor
    · rintro ⟨-, h2, h3, h4⟩
      exact ⟨by simpa using h2, h3, fun j hj => h4 j (Nat.zero_le _) hj⟩
    · rintro ⟨h1, h2, h3⟩
      exact ⟨Nat.zero_le _, by simpa using h1, h2,
        fun j _ hj => h3 j hj⟩
  · intro i d
    rw [pollLoop, pollLoopAux_failure_iff]
    simp only [wireReplies, wire_success_iff, wire_failure_iff]
    constructor
    · rintro ⟨-, h2, h3, h4, h5⟩
      exact ⟨by simpa using h2, h3, h4, fun j hj => h5 j (Nat.zero_le _) hj⟩
    · rintro ⟨h1, h2, h3, h4⟩
      exact ⟨Nat.zero_le _, by simpa using h1, h2, h3,
        fun j _ hj => h4 j hj⟩
  · unfold loadPollPhase
    cases hp : pollLoop (wireReplies st det) with
    | success i => simp [hp]
    | failure d i => simp [hp]
    | exhausted => simp [hp]
  · unfold fetchFractalImg
    norm_num
    cases hp : pollLoop (wireReplies st det) with
    | success i => simp [hp]
    | failure d i => simp [hp]
    | exhausted => simp [hp]
  · intro i d h
    constructor
    · unfold loadPollPhase
      rw [h]
    · unfold fetchFractalImg
      norm_num
      rw [h]

/-- Witness for C5: for a task that is Running at poll 0 and Succeeded at
poll 1, the loop breaks with success at poll 1. -/
theorem pollLoop_protocol_spec_witness :
    pollLoop (wireReplies
      (fun i => if i = 0 then TaskState.running else TaskState.succeeded)
      (fun _ => "")) = LoopExit.success 1 :=
  ((pollLoop_protocol_spec
      (fun i => if i = 0 then TaskState.running else TaskState.succeeded)
      (fun _ => "")).1 1).mpr (by decide)

/- ## Raw map download (src/frontend/fractal-app/src/App.jsx,
fetchFractalMap)

The raw `get_map` response body is gzip-decompressed through a
`DecompressionStream` and viewed as a `Float32Array`; when decompression
throws, the cloned original response bytes are viewed directly. The
external decompressor and the byte-to-float32 view are embedded as
function parameters. -/

/-- A `fetch` response as `fetchFractalMap` consumes it: its `ok` flag,
`statusText`, and body bytes. -/
structure HttpResponse where
  ok : Bool
  statusText : String
  body : List ℕ
deriving DecidableEq

/-- `fetchFractalMap` from `App.jsx`: throw on a non-ok response,
otherwise gzip-decompress the body and view it as 32-bit floats, falling
back to viewing the original bytes when decompression fails. -/
def fetchFractalMap (gunzip : List ℕ → Option (List ℕ))
    (asFloat32 : List ℕ → List ℚ) (resp : HttpResponse) :
    Except String (List ℚ) :=
  if !resp.ok then
    .error ("Failed to download map: " ++ resp.statusText)
  else
    match gunzip resp.body with
    | some decompressed => .ok (asFloat32 decompressed)
    | none => .ok (asFloat32 resp.body)

/-- Claim C7: `fetchFractalMap` throws exactly on a non-ok response;
otherwise it returns the float32 view of the gzip-decompressed body, or of
the original body when decompression fails. -/
theorem fetchFractalMap_spec (gunzip : List ℕ → Option (List ℕ))
    (asFloat32 : List ℕ → List ℚ) (resp : HttpResponse) :
    (resp.ok = false → fetchFractalMap gunzip asFloat32 resp =
       Except.error ("Failed to download map: " ++ resp.statusText)) ∧
    (∀ d, resp.ok = true → gunzip resp.body = some d →
       fetchFractalMap gunzip asFloat32 resp = Except.ok (asFloat32 d)) ∧
    (resp.ok = true → gunzip resp.body = none →
       fetchFractalMap gunzip asFloat32 resp =
         Except.ok (asFloat32 resp.body)) := by
  refine ⟨?_, ?_, ?_⟩ <;> intros <;> simp [fetchFractalMap, *]

/-- Witness for C7: a successful response whose body decompresses to
`[7]` yields the float32 view of `[7]`. -/
theorem fetchFractalMap_spec_witness :
    fetchFractalMap (fun _ => some [7]) (fun l => [(l.length : ℚ)])
      ⟨true, "", [1, 2]⟩ = Except.ok [(1 : ℚ)] :=
  (fetchFractalMap_spec (fun _ => some [7]) (fun l => [(l.length : ℚ)])
      ⟨true, "", [1, 2]⟩).2.1 [7] rfl rfl

/- ## Terrain mesh vertex heights
(src/frontend/fractal-app/src/components/FractalMesh.jsx and the inline
mesh construction in src/frontend/fractal-app/src/Frxp3D.jsx)

JS numbers here can be NaN or infinite (the height map may contain NaN
from a 0/0 normalization), so the height-map cells are embedded as a JS
number type with those values. Only multiplication is needed. -/

/-- A JS double as the mesh code observes it: an (idealized) finite value,
NaN, or an infinity. -/
inductive JsNum where
  | num (q : ℚ)
  | nan
  | inf
  | ninf
deriving DecidableEq

/-- `Number.isFinite`. -/
def JsNum.isFinite : JsNum → Bool
  | .num _ => true
  | _ => false

/-- JS multiplication on the embedded doubles (signed zeros and overflow
are outside the idealization): NaN is absorbing, infinities follow sign,
and `0 * Infinity` is NaN. -/
def JsNum.mul : JsNum → JsNum → JsNum
  | .nan, _ => .nan
  | _, .nan => .nan
  | .num a, .num b => .num (a * b)
  | .num a, .inf => if a = 0 then .nan else if 0 < a then .inf else .ninf
  | .num a, .ninf => if a = 0 then .nan else if 0 < a then .ninf else .inf
  | .inf, .num b => if b = 0 then .nan else if 0 < b then .inf else .ninf
  | .ninf, .num b => if b = 0 then .nan else if 0 < b then .ninf else .inf
  | .inf, .inf => .inf
  | .inf, .ninf => .ninf
  | .ninf, .inf => .ninf
  | .ninf, .ninf => .inf

/-- The y-position `FractalMesh.jsx` assigns to vertex `(i, j)`:
`y = (Number.isFinite(rawY) ? rawY : 0) * heightScale`, then the skirt
logic forces boundary vertices to 0. -/
def fractalMeshY (heightScale : ℚ) (height width : ℕ)
    (combinedHeightMap : ℕ → ℕ → JsNum) (i j : ℕ) : JsNum :=
  let rawY := combinedHeightMap i j
  let y := JsNum.mul (if rawY.isFinite then rawY else .num 0)
    (.num heightScale)
  if i = 0 ∨ i = height - 1 ∨ j = 0 ∨ j = width - 1 then .num 0 else y

/-- `const HEIGHT_SCALING_FACTOR = 222` in `Frxp3D.jsx`. -/
def HEIGHT_SCALING_FACTOR : ℚ := 222

/-- The y-position the inline mesh construction in `Frxp3D.jsx` assigns to
vertex `(i, j)`: `height = combinedHeightMap[i][j] * HEIGHT_SCALING_FACTOR`
with no finiteness guard, then the skirt logic forces boundary vertices
to 0. -/
def frxp3dMeshY (gridHeight gridWidth : ℕ)
    (combinedHeightMap : ℕ → ℕ → JsNum) (i j : ℕ) : JsNum :=
  let h := JsNum.mul (combinedHeightMap i j) (.num HEIGHT_SCALING_FACTOR)
  if i = 0 ∨ i = gridHeight - 1 ∨ j = 0 ∨ j = gridWidth - 1 then .num 0
  else h

/-- Counterexample to claim C9 at a concrete input: in the `Frxp3D.jsx`
mesh construction, the interior vertex `(1, 1)` of a 3 x 3 grid whose
height-map value is NaN (not a finite number, and not on the boundary)
gets y-position NaN — `NaN * 222` — and not the 0 the claim asserts for
every non-finite vertex. -/
theorem frxp3dMeshY_nan_counterexample :
    (JsNum.isFinite
      ((fun i j => if i = 1 ∧ j = 1 then JsNum.nan else JsNum.num 1) 1 1)
      = false) ∧
    frxp3dMeshY 3 3
      (fun i j => if i = 1 ∧ j = 1 then JsNum.nan else JsNum.num 1) 1 1 =
        JsNum.nan ∧
    decide (frxp3dMeshY 3 3
      (fun i j => if i = 1 ∧ j = 1 then JsNum.nan else JsNum.num 1) 1 1 =
        JsNum.num 0) = false := by
  refine ⟨rfl, ?_, ?_⟩ <;> decide

/-- Claim C9 as amended: both meshes force every boundary vertex to
y-position exactly 0; the `FractalMesh.jsx` component (the mesh the app
renders) additionally assigns 0 to any interior vertex whose height-map
value is not a finite number and `value * heightScale` to every other
interior vertex, while the inline `Frxp3D.jsx` construction multiplies the
raw value by 222 with no finiteness guard. -/
theorem meshY_spec (heightScale : ℚ) (height width : ℕ)
    (m : ℕ → ℕ → JsNum) (i j : ℕ) :
    (i = 0 ∨ i = height - 1 ∨ j = 0 ∨ j = width - 1 →
       fractalMeshY heightScale height width m i j = JsNum.num 0 ∧
       frxp3dMeshY height width m i j = JsNum.num 0) ∧
    (¬(i = 0 ∨ i = height - 1 ∨ j = 0 ∨ j = width - 1) →
       (JsNum.isFinite (m i j) = false →
          fractalMeshY heightScale height width m i j = JsNum.num 0) ∧
       (∀ q, m i j = JsNum.num q →
          fractalMeshY heightScale height width m i j =
            JsNum.num (q * heightScale) ∧
          frxp3dMeshY height width m i j =
            JsNum.num (q * HEIGHT_SCALING_FACTOR))) := by
  constructor
  · intro hb
    constructor
    · show (if i = 0 ∨ i = height - 1 ∨ j = 0 ∨ j = width - 1 then
          JsNum.num 0 else _) = JsNum.num 0
      rw [if_pos hb]
    · show (if i = 0 ∨ i = height - 1 ∨ j = 0 ∨ j = width - 1 then
          JsNum.num 0 else _) = JsNum.num 0
      rw [if_pos hb]
  · intro hb
    constructor
    · intro hfin
      show (if i = 0 ∨ i = height - 1 ∨ j = 0 ∨ j = width - 1 then
          JsNum.num 0 else JsNum.mul
            (if (m i j).isFinite then m i j else .num 0)
            (.num heightScale)) = JsNum.num 0
      rw [if_neg hb, hfin]
      show JsNum.mul (if false = true then m i j else .num 0)
        (.num heightScale) = JsNum.num 0
      simp [JsNum.mul]
    · intro q hq
      constructor
      · show (if i = 0 ∨ i = height - 1 ∨ j = 0 ∨ j = width - 1 then
            JsNum.num 0 else JsNum.mul
              (if (m i j).isFinite then m i j else .num 0)
              (.num heightScale)) = JsNum.num (q * heightScale)
        rw [if_neg hb, hq]
        show JsNum.mul (if true = true then JsNum.num q else .num 0)
          (.num heightScale) = JsNum.num (q * heightScale)
        simp [JsNum.mul]
      · show (if i = 0 ∨ i = height - 1 ∨ j = 0 ∨ j = width - 1 then
            JsNum.num 0 else
              JsNum.mul (m i j) (.num HEIGHT_SCALING_FACTOR)) =
          JsNum.num (q * HEIGHT_SCALING_FACTOR)
        rw [if_neg hb, hq]
        simp [JsNum.mul]

/-- Witness for the amended C9, on 3 x 3 grids with height scale 30:
corner `(0, 0)` gets 0 in both meshes; the sole interior vertex `(1, 1)`
gets 0 in `FractalMesh` when its height-map value is NaN, and gets
`5 * 30` in `FractalMesh` and `5 * 222` in the inline mesh when its value
is 5. -/
theorem meshY_spec_witness :
    (fractalMeshY 30 3 3
        (fun i j => if i = 1 ∧ j = 1 then JsNum.nan else JsNum.num 5) 0 0 =
          JsNum.num 0 ∧
     frxp3dMeshY 3 3
        (fun i j => if i = 1 ∧ j = 1 then JsNum.nan else JsNum.num 5) 0 0 =
          JsNum.num 0) ∧
    fractalMeshY 30 3 3
        (fun i j => if i = 1 ∧ j = 1 then JsNum.nan else JsNum.num 5) 1 1 =
          JsNum.num 0 ∧
    fractalMeshY 30 3 3 (fun _ _ => JsNum.num 5) 1 1 =
          JsNum.num (5 * 30) ∧
    frxp3dMeshY 3 3 (fun _ _ => JsNum.num 5) 1 1 =
          JsNum.num (5 * HEIGHT_SCALING_FACTOR) :=
  ⟨(meshY_spec 30 3 3
      (fun i j => if i = 1 ∧ j = 1 then JsNum.nan else JsNum.num 5) 0 0).1
      (Or.inl rfl),
   ((meshY_spec 30 3 3
      (fun i j => if i = 1 ∧ j = 1 then JsNum.nan else JsNum.num 5) 1 1).2
      (by decide)).1 (by decide),
   (((meshY_spec 30 3 3 (fun _ _ => JsNum.num 5) 1 1).2
      (by decide)).2 5 (by decide)).1,
   (((meshY_spec 30 3 3 (fun _ _ => JsNum.num 5) 1 1).2
      (by decide)).2 5 (by decide)).2⟩

/- ## Simplex noise and createFractalMountains
(src/frontend/fractal-app/src/utils/noiseUtils.js, with the
PLATEAUS_AND_VALLEYS parameter set from configs/noiseConfig.js)

JS doubles are idealized as exact rationals. `Math.sqrt(3.0)` is embedded
as the exact rational value of that IEEE-754 double. `Date.now()` — the
default seed of `new SimplexNoise()` — becomes an explicit input `now`.
Rational division by zero is 0 in Lean where JS produces NaN; the claims
proved below never divide by zero (the base map in C8 has two distinct
values) or never look at cell values at all (C10). -/

/-- The 12 pre-calculated gradient vectors (36 flat components) of
`noiseUtils.js`. -/
def grad3 : List ℚ :=
  [1, 1, 0, -1, 1, 0, 1, -1, 0, -1, -1, 0, 1, 0, 1, -1, 0, 1,
   1, 0, -1, -1, 0, -1, 0, 1, 1, 0, -1, 1, 0, 1, -1, 0, -1, -1]

/-- Indexing into `grad3` (a typed-array read at a valid index). -/
def grad (k : ℕ) : ℚ := grad3.getD k 0

/-- One step of the seeded Park-Miller generator in the `SimplexNoise`
constructor: `s = (s * 16807) % 2147483647`. -/
def lcgNext (s : ℕ) : ℕ := s * 16807 % 2147483647

/-- `n` generator steps. -/
def lcgIter : ℕ → ℕ → ℕ
  | 0, s => s
  | n + 1, s => lcgIter n (lcgNext s)

/-- The generator state seeded in the `SimplexNoise` constructor:
`let s = seed % 2147483647; if (s <= 0) s += 2147483646`. -/
def lcgInit (seed : ℕ) : ℕ :=
  let s := seed % 2147483647
  if s = 0 then 2147483646 else s

/-- Entry `i` of the 256-entry permutation base table `p`:
`p[i] = Math.floor(rng() * 256)` where the `i`-th loop iteration sees the
`(i+1)`-st generator state and `rng()` returns `(s - 1) / 2147483646`. -/
def permP (s0 i : ℕ) : ℕ := (lcgIter (i + 1) s0 - 1) * 256 / 2147483646

/-- The extended 512-entry table: `perm[i] = p[i & 255]`. -/
def perm (s0 i : ℕ) : ℕ := permP s0 (i % 256)

/-- `permMod12[i] = perm[i] % 12`. -/
def permMod12 (s0 i : ℕ) : ℕ := perm s0 i % 12

/-- The exact rational value of the IEEE-754 double `Math.sqrt(3.0)`. -/
def sqrt3 : ℚ := 3900231685776981 / 2251799813685248

/-- Skewing factor `F2 = 0.5 * (Math.sqrt(3.0) - 1.0)`. -/
def F2 : ℚ := (sqrt3 - 1) / 2

/-- Unskewing factor `G2 = (3.0 - Math.sqrt(3.0)) / 6.0`. -/
def G2 : ℚ := (3 - sqrt3) / 6

/-- `SimplexNoise.noise2D(xin, yin)` for the generator seeded with state
`s0`, translated line by line from `noiseUtils.js` (the `dot` helper is
inlined as `grad gi * x + grad (gi+1) * y`). -/
def noise2D (s0 : ℕ) (xin yin : ℚ) : ℚ :=
  let s := (xin + yin) * F2
  let i : ℤ := Rat.floor (xin + s)
  let j : ℤ := Rat.floor (yin + s)
  let t : ℚ := ((i + j : ℤ) : ℚ) * G2
  let X0 : ℚ := (i : ℚ) - t
  let Y0 : ℚ := (j : ℚ) - t
  let x0 := xin - X0
  let y0 := yin - Y0
  let i1 : ℕ := if y0 < x0 then 1 else 0
  let j1 : ℕ := if y0 < x0 then 0 else 1
  let x1 := x0 - (i1 : ℚ) + G2
  let y1 := y0 - (j1 : ℚ) + G2
  let x2 := x0 - 1 + 2 * G2
  let y2 := y0 - 1 + 2 * G2
  let ii : ℕ := (i % 256).toNat
  let jj : ℕ := (j % 256).toNat
  let gi0 := permMod12 s0 (ii + perm s0 jj) * 3
  let gi1 := permMod12 s0 (ii + i1 + perm s0 (jj + j1)) * 3
  let gi2 := permMod12 s0 (ii + 1 + perm s0 (jj + 1)) * 3
  let t0 := 1 / 2 - x0 * x0 - y0 * y0
  let n0 := if t0 < 0 then 0
    else (t0 * t0) * (t0 * t0) * (grad gi0 * x0 + grad (gi0 + 1) * y0)
  let t1 := 1 / 2 - x1 * x1 - y1 * y1
  let n1 := if t1 < 0 then 0
    else (t1 * t1) * (t1 * t1) * (grad gi1 * x1 + grad (gi1 + 1) * y1)
  let t2 := 1 / 2 - x2 * x2 - y2 * y2
  let n2 := if t2 < 0 then 0
    else (t2 * t2) * (t2 * t2) * (grad gi2 * x2 + grad (gi2 + 1) * y2)
  70 * (n0 + n1 + n2)

/-- The octave loop of `getNoiseValue`, carrying `amplitude`, `frequency`
and the accumulated `noiseValue`. -/
def fbmAux (s0 : ℕ) (x y scale persistence lacunarity : ℚ) :
    ℕ → ℚ → ℚ → ℚ → ℚ
  | 0, _, _, acc => acc
  | n + 1, amplitude, frequency, acc =>
    fbmAux s0 x y scale persistence lacunarity n
      (amplitude * persistence) (frequency * lacunarity)
      (acc + noise2D s0 (x * scale * frequency) (y * scale * frequency) *
        amplitude)

/-- `getNoiseValue(noiseGen, x, y, {scale, octaves, persistence,
lacunarity})` from `noiseUtils.js`. -/
def getNoiseValue (s0 : ℕ) (x y scale : ℚ) (octaves : ℕ)
    (persistence lacunarity : ℚ) : ℚ :=
  fbmAux s0 x y scale persistence lacunarity octaves 1 1 0

/-- The noise-layering parameter object of `createFractalMountains`; the
field defaults are the destructuring defaults in `noiseUtils.js`. -/
structure NoiseParams where
  baseNoiseScale : ℚ := 5 / 10000
  baseNoiseOctaves : ℕ := 4
  baseNoisePersistence : ℚ := 5 / 10
  baseNoiseLacunarity : ℚ := 2
  detailNoiseScale : ℚ := 5 / 1000
  detailNoiseOctaves : ℕ := 8
  detailNoisePersistence : ℚ := 6 / 10
  detailNoiseLacunarity : ℚ := 2
  baseNoiseWeight : ℚ := 5 / 10
  detailNoiseWeight : ℚ := 5 / 10
deriving DecidableEq

/-- `PLATEAUS_AND_VALLEYS` from `configs/noiseConfig.js` — the parameter
set `loadFractalData` passes to `createFractalMountains`. -/
def PLATEAUS_AND_VALLEYS : NoiseParams where
  baseNoiseScale := 5 / 10000
  baseNoiseOctaves := 4
  baseNoisePersistence := 7 / 10
  baseNoiseLacunarity := 2
  baseNoiseWeight := 7 / 10
  detailNoiseScale := 5 / 1000
  detailNoiseOctaves := 5
  detailNoisePersistence := 6 / 10
  detailNoiseLacunarity := 2
  detailNoiseWeight := 5 / 10

/-- The body of the min-scan loop over the base map:
`if (baseMap[y][x] < baseMapMin) baseMapMin = baseMap[y][x]`, with `none`
standing for the initial `Infinity`. -/
def minStep (acc : Option ℚ) (v : ℚ) : Option ℚ :=
  match acc with
  | none => some v
  | some m => if v < m then some v else some m

/-- The body of the max-scan loop, with `none` standing for the initial
`-Infinity`. -/
def maxStep (acc : Option ℚ) (v : ℚ) : Option ℚ :=
  match acc with
  | none => some v
  | some m => if m < v then some v else some m

/-- The full min scan over all cells (row-major). -/
def jsMin (cells : List ℚ) : Option ℚ := cells.foldl minStep none

/-- The full max scan over all cells (row-major). -/
def jsMax (cells : List ℚ) : Option ℚ := cells.foldl maxStep none

/-- Reading `baseMap[y][x]`. -/
def cellAt (bm : List (List ℚ)) (y x : ℕ) : ℚ := (bm.getD y []).getD x 0

/-- `baseMapMin` after the scan loops (the grid is scanned row by row,
which is exactly `bm.flatten`). -/
def baseMapMin (bm : List (List ℚ)) : ℚ := (jsMin bm.flatten).getD 0

/-- `baseMapMax` after the scan loops. -/
def baseMapMax (bm : List (List ℚ)) : ℚ := (jsMax bm.flatten).getD 0

/-- `normalizedFractal = (baseMap[y][x] - baseMapMin) / baseMapRange` with
`baseMapRange = baseMapMax - baseMapMin`. -/
def normalizedCell (bm : List (List ℚ)) (y x : ℕ) : ℚ :=
  (cellAt bm y x - baseMapMin bm) / (baseMapMax bm - baseMapMin bm)

/-- The pixel loops of `createFractalMountains` once the two noise
generators have been constructed with states `s1` and `s2`: for each cell,
layer the two fBM noise values, each weighted and multiplied by the
normalized fractal height, on top of the normalized fractal height. -/
def cfmSeeded (s1 s2 : ℕ) (bm : List (List ℚ)) (p : NoiseParams) :
    List (List ℚ) :=
  (List.range bm.length).map fun y =>
    (List.range (bm.headD []).length).map fun x =>
      let normalizedFractal := normalizedCell bm y x
      let baseNoiseValue := getNoiseValue s1 (x : ℚ) (y : ℚ)
        p.baseNoiseScale p.baseNoiseOctaves p.baseNoisePersistence
        p.baseNoiseLacunarity
      let detailNoiseValue := getNoiseValue s2 (x : ℚ) (y : ℚ)
        p.detailNoiseScale p.detailNoiseOctaves p.detailNoisePersistence
        p.detailNoiseLacunarity
      normalizedFractal +
        baseNoiseValue * p.baseNoiseWeight * normalizedFractal +
        detailNoiseValue * p.detailNoiseWeight * normalizedFractal

/-- `createFractalMountains(baseMap, params)` from `noiseUtils.js`: return
`[]` for a null or zero-row base map, otherwise construct the two noise
generators — `new SimplexNoise()` seeded with `Date.now()` (here the
explicit input `now`) and `new SimplexNoise(Date.now() + 1)` — and build
the layered height map. -/
def createFractalMountains (now : ℕ) (baseMap : Option (List (List ℚ)))
    (p : NoiseParams) : List (List ℚ) :=
  match baseMap with
  | none => []
  | some bm =>
    if bm.length = 0 then []
    else cfmSeeded (lcgInit now) (lcgInit (now + 1)) bm p

/-- The min-scan fold, started at `some a`, lands on a value that is at
most `a`, at most every scanned cell, and is `a` or one of the cells. -/
theorem foldl_minStep_some (cells : List ℚ) :
    ∀ a : ℚ, ∃ m, cells.foldl minStep (some a) = some m ∧ m ≤ a ∧
      (m = a ∨ m ∈ cells) ∧ ∀ v ∈ cells, m ≤ v := by
  induction cells with
  | nil => intro a; exact ⟨a, rfl, le_refl a, Or.inl rfl, by simp⟩
  | cons v vs ih =>
    intro a
    by_cases hv : v < a
    · obtain ⟨m, hm, hma, hmem, hall⟩ := ih v
      have hstep : minStep (some a) v = some v := by
        simp [minStep, hv]
      refine ⟨m, ?_, le_trans hma (le_of_lt hv), ?_, ?_⟩
      · rw [List.foldl_cons, hstep]; exact hm
      · rcases hmem with h | h
        · exact Or.inr (by rw [h]; exact List.mem_cons_self v vs)
        · exact Or.inr (List.mem_cons_of_mem v h)
      · intro u hu
        rcases List.mem_cons.1 hu with rfl | h
        · exact hma
        · exact hall u h
    · obtain ⟨m, hm, hma, hmem, hall⟩ := ih a
      have hstep : minStep (some a) v = some a := by
        simp [minStep, hv]
      refine ⟨m, ?_, hma, ?_, ?_⟩
      · rw [List.foldl_cons, hstep]; exact hm
      · rcases hmem with h | h
        · exact Or.inl h
        · exact Or.inr (List.mem_cons_of_mem v h)
      · intro u hu
        rcases List.mem_cons.1 hu with rfl | h
        · exact le_trans hma (le_of_not_lt hv)
        · exact hall u h

/-- The max-scan fold, started at `some a`, lands on a value that is at
least `a`, at least every scanned cell, and is `a` or one of the cells. -/
theorem foldl_maxStep_some (cells : List ℚ) :
    ∀ a : ℚ, ∃ m, cells.foldl maxStep (some a) = some m ∧ a ≤ m ∧
      (m = a ∨ m ∈ cells) ∧ ∀ v ∈ cells, v ≤ m := by
  induction cells with
  | nil => intro a; exact ⟨a, rfl, le_refl a, Or.inl rfl, by simp⟩
  | cons v vs ih =>
    intro a
    by_cases hv : a < v
    · obtain ⟨m, hm, hma, hmem, hall⟩ := ih v
      have hstep : maxStep (some a) v = some v := by
        simp [maxStep, hv]
      refine ⟨m, ?_, le_trans (le_of_lt hv) hma, ?_, ?_⟩
      · rw [List.foldl_cons, hstep]; exact hm
      · rcases hmem with h | h
        · exact Or.inr (by rw [h]; exact List.mem_cons_self v vs)
        · exact Or.inr (List.mem_cons_of_mem v h)
      · intro u hu
        rcases List.mem_cons.1 hu with rfl | h
        · exact hma
        · exact hall u h
    · obtain ⟨m, hm, hma, hmem, hall⟩ := ih a
      have hstep : maxStep (some a) v = some a := by
        simp [maxStep, hv]
      refine ⟨m, ?_, hma, ?_, ?_⟩
      · rw [List.foldl_cons, hstep]; exact hm
      · rcases hmem with h | h
        · exact Or.inl h
        · exact Or.inr (List.mem_cons_of_mem v h)
      · intro u hu
        rcases List.mem_cons.1 hu with rfl | h
        · exact le_trans (le_of_not_lt hv) hma
        · exact hall u h

/-- On a nonempty cell list, the min scan returns one of the cells, and it
is a lower bound for all of them. -/
theorem jsMin_spec (cells : List ℚ) (h : cells ≠ []) :
    ∃ m, jsMin cells = some m ∧ m ∈ cells ∧ ∀ v ∈ cells, m ≤ v := by
  match cells, h with
  | v :: vs, _ =>
    obtain ⟨m, hm, hma, hmem, hall⟩ := foldl_minStep_some vs v
    refine ⟨m, ?_, ?_, ?_⟩
    · show (v :: vs).foldl minStep none = some m
      rw [List.foldl_cons]; exact hm
    · rcases hmem with h | h
      · rw [h]; exact List.mem_cons_self v vs
      · exact List.mem_cons_of_mem v h
    · intro u hu
      rcases List.mem_cons.1 hu with rfl | h
      · exact hma
      · exact hall u h

/-- On a nonempty cell list, the max scan returns one of the cells, and it
is an upper bound for all of them. -/
theorem jsMax_spec (cells : List ℚ) (h : cells ≠ []) :
    ∃ m, jsMax cells = some m ∧ m ∈ cells ∧ ∀ v ∈ cells, v ≤ m := by
  match cells, h with
  | v :: vs, _ =>
    obtain ⟨m, hm, hma, hmem, hall⟩ := foldl_maxStep_some vs v
    refine ⟨m, ?_, ?_, ?_⟩
    · show (v :: vs).foldl maxStep none = some m
      rw [List.foldl_cons]; exact hm
    · rcases hmem with h | h
      · rw [h]; exact List.mem_cons_self v vs
      · exact List.mem_cons_of_mem v h
    · intro u hu
      rcases List.mem_cons.1 hu with rfl | h
      · exact hma
      · exact hall u h

/-- Claim C8: the normalization in `createFractalMountains` is grid-wide
and uses the batch's own observed extrema — `baseMapMin` / `baseMapMax`
are a member of and a lower/upper bound for the whole scanned grid, every
output cell is built from `normalizedFractal = (v - min) / (max - min)`
(the noise layers are multiples of it), and whenever the grid holds two
distinct values, every cell's normalized value lies in `[0, 1]`. -/
theorem createFractalMountains_normalization (now : ℕ)
    (bm : List (List ℚ)) (p : NoiseParams) :
    (bm.flatten ≠ [] →
       (baseMapMin bm ∈ bm.flatten ∧
          ∀ v ∈ bm.flatten, baseMapMin bm ≤ v) ∧
       (baseMapMax bm ∈ bm.flatten ∧
          ∀ v ∈ bm.flatten, v ≤ baseMapMax bm)) ∧
    (∀ y x, y < bm.length → x < (bm.getD y []).length →
       cellAt bm y x ∈ bm.flatten) ∧
    (∀ y x, normalizedCell bm y x =
       (cellAt bm y x - baseMapMin bm) / (baseMapMax bm - baseMapMin bm)) ∧
    (0 < bm.length → ∀ y x, y < bm.length → x < (bm.headD []).length →
       cellAt (createFractalMountains now (some bm) p) y x =
         normalizedCell bm y x +
         getNoiseValue (lcgInit now) (x : ℚ) (y : ℚ) p.baseNoiseScale
             p.baseNoiseOctaves p.baseNoisePersistence
             p.baseNoiseLacunarity *
           p.baseNoiseWeight * normalizedCell bm y x +
         getNoiseValue (lcgInit (now + 1)) (x : ℚ) (y : ℚ)
             p.detailNoiseScale p.detailNoiseOctaves
             p.detailNoisePersistence p.detailNoiseLacunarity *
           p.detailNoiseWeight * normalizedCell bm y x) ∧
    (∀ a b, a ∈ bm.flatten → b ∈ bm.flatten → a < b →
       ∀ v ∈ bm.flatten,
         0 ≤ (v - baseMapMin bm) / (baseMapMax bm - baseMapMin bm) ∧
         (v - baseMapMin bm) / (baseMapMax bm - baseMapMin bm) ≤ 1) := by
  refine ⟨?_, ?_, fun y x => rfl, ?_, ?_⟩
  · intro hne
    obtain ⟨m, hm, hmem, hall⟩ := jsMin_spec bm.flatten hne
    obtain ⟨M, hM, hMmem, hMall⟩ := jsMax_spec bm.flatten hne
    have h1 : baseMapMin bm = m := by unfold baseMapMin; rw [hm]; rfl
    have h2 : baseMapMax bm = M := by unfold baseMapMax; rw [hM]; rfl
    rw [h1, h2]
    exact ⟨⟨hmem, hall⟩, ⟨hMmem, hMall⟩⟩
  · intro y x hy hx
    have hrow : bm.getD y [] = bm[y] := by
      rw [List.getD_eq_getElem?_getD, List.getElem?_eq_getElem hy]; rfl
    have hcell : cellAt bm y x = (bm.getD y [])[x] := by
      show (bm.getD y []).getD x 0 = _
      rw [List.getD_eq_getElem?_getD, List.getElem?_eq_getElem hx]; rfl
    rw [hcell]
    exact List.mem_flatten.2
      ⟨bm.getD y [], by rw [hrow]; exact List.getElem_mem hy,
       List.getElem_mem hx⟩
  · intro hlen y x hy hx
    have hcfm : createFractalMountains now (some bm) p =
        cfmSeeded (lcgInit now) (lcgInit (now + 1)) bm p := by
      show (if bm.length = 0 then []
        else cfmSeeded (lcgInit now) (lcgInit (now + 1)) bm p) = _
      rw [if_neg (by omega)]
    rw [hcfm]
    exact getD_range_map
      (fun y x =>
        normalizedCell bm y x +
        getNoiseValue (lcgInit now) (x : ℚ) (y : ℚ) p.baseNoiseScale
            p.baseNoiseOctaves p.baseNoisePersistence
            p.baseNoiseLacunarity *
          p.baseNoiseWeight * normalizedCell bm y x +
        getNoiseValue (lcgInit (now + 1)) (x : ℚ) (y : ℚ)
            p.detailNoiseScale p.detailNoiseOctaves
            p.detailNoisePersistence p.detailNoiseLacunarity *
          p.detailNoiseWeight * normalizedCell bm y x)
      bm.length (bm.headD []).length y x hy hx
  · intro a b ha hb hab v hv
    have hne : bm.flatten ≠ [] := List.ne_nil_of_mem ha
    obtain ⟨m, hm, hmem, hall⟩ := jsMin_spec bm.flatten hne
    obtain ⟨M, hM, hMmem, hMall⟩ := jsMax_spec bm.flatten hne
    have h1 : baseMapMin bm = m := by unfold baseMapMin; rw [hm]; rfl
    have h2 : baseMapMax bm = M := by unfold baseMapMax; rw [hM]; rfl
    rw [h1, h2]
    have hlt : m < M :=
      lt_of_le_of_lt (hall a ha) (lt_of_lt_of_le hab (hMall b hb))
    have hpos : 0 < M - m := sub_pos.2 hlt
    constructor
    · exact div_nonneg (sub_nonneg.2 (hall v hv)) (le_of_lt hpos)
    · exact (div_le_one hpos).2 (sub_le_sub_right (hMall v hv) m)

/-- Claim C10: `createFractalMountains` returns `[]` for a null base map
and for one with zero rows; for a non-empty rectangular base map it
returns a fresh grid with the same row and column counts (the embedding is
a pure function of its inputs, so the input grid is never modified). -/
theorem createFractalMountains_shape (now : ℕ) (p : NoiseParams) :
    createFractalMountains now none p = [] ∧
    createFractalMountains now (some []) p = [] ∧
    ∀ bm : List (List ℚ), 0 < bm.length →
      (∀ row ∈ bm, row.length = (bm.headD []).length) →
      (createFractalMountains now (some bm) p).length = bm.length ∧
      ∀ row ∈ createFractalMountains now (some bm) p,
        row.length = (bm.headD []).length := by
  refine ⟨rfl, rfl, ?_⟩
  intro bm hlen hrect
  have hcfm : createFractalMountains now (some bm) p =
      cfmSeeded (lcgInit now) (lcgInit (now + 1)) bm p := by
    show (if bm.length = 0 then []
      else cfmSeeded (lcgInit now) (lcgInit (now + 1)) bm p) = _
    rw [if_neg (by omega)]
  rw [hcfm]
  constructor
  · simp [cfmSeeded]
  · intro row hrow
    simp only [cfmSeeded, List.mem_map] at hrow
    obtain ⟨y, -, rfl⟩ := hrow
    simp

/-- Witness for C8: on the base map `[[0, 1]]` (two distinct values), the
normalized value of the cell holding 1 lies in `[0, 1]`. -/
theorem createFractalMountains_normalization_witness :
    0 ≤ ((1 : ℚ) - baseMapMin [[0, 1]]) /
        (baseMapMax [[0, 1]] - baseMapMin [[0, 1]]) ∧
    ((1 : ℚ) - baseMapMin [[0, 1]]) /
        (baseMapMax [[0, 1]] - baseMapMin [[0, 1]]) ≤ 1 :=
  (createFractalMountains_normalization 0 [[0, 1]]
      PLATEAUS_AND_VALLEYS).2.2.2.2 0 1 (by decide) (by decide)
    (by decide) 1 (by decide)

/-- Witness for C10: a 2 x 1 base map yields a 2 x 1 output grid. -/
theorem createFractalMountains_shape_witness :
    (createFractalMountains 0 (some [[0], [1]])
        PLATEAUS_AND_VALLEYS).length = ([[0], [1]] : List (List ℚ)).length ∧
    ∀ row ∈ createFractalMountains 0 (some [[0], [1]]) PLATEAUS_AND_VALLEYS,
      row.length = (([[0], [1]] : List (List ℚ)).headD []).length :=
  (createFractalMountains_shape 0 PLATEAUS_AND_VALLEYS).2.2 [[0], [1]]
    (by decide) (by decide)

/-- Claim C1 as amended: `createFractalMountains` is a pure function of
the base map, the noise parameters and the clock reading that seeds its
two noise generators — two evaluations whose `Date.now()` readings agree
modulo the generator modulus 2147483647 produce identical maps. -/
theorem createFractalMountains_clock_determined (now1 now2 : ℕ)
    (baseMap : Option (List (List ℚ))) (p : NoiseParams)
    (h : now1 % 2147483647 = now2 % 2147483647) :
    createFractalMountains now1 baseMap p =
      createFractalMountains now2 baseMap p := by
  have h1 : lcgInit now1 = lcgInit now2 := by
    unfold lcgInit
    rw [h]
  have h2 : lcgInit (now1 + 1) = lcgInit (now2 + 1) := by
    unfold lcgInit
    rw [Nat.add_mod now1 1, h, ← Nat.add_mod]
  cases baseMap with
  | none => rfl
  | some bm =>
    show (if bm.length = 0 then []
      else cfmSeeded (lcgInit now1) (lcgInit (now1 + 1)) bm p) =
        createFractalMountains now2 (some bm) p
    rw [h1, h2]
    rfl

/-- Witness for the amended C1: clock readings 5 and 2147483652 (equal
modulo the generator modulus) produce identical maps. -/
theorem createFractalMountains_clock_determined_witness :
    5 % 2147483647 = 2147483652 % 2147483647 ∧
    createFractalMountains 5 (some [[0, 1]]) PLATEAUS_AND_VALLEYS =
      createFractalMountains 2147483652 (some [[0, 1]])
        PLATEAUS_AND_VALLEYS :=
  ⟨by norm_num, createFractalMountains_clock_determined 5 2147483652
    (some [[0, 1]]) PLATEAUS_AND_VALLEYS (by norm_num)⟩

section
attribute [local semireducible] Rat.add Rat.mul Rat.inv Rat.sub
set_option maxRecDepth 10000

/-- Counterexample to claim C1 at a concrete input: the data-loading
pipeline is not a pure function of the fractal parameters — evaluating
`createFractalMountains` on the same base map `[[0, 1]]` and the same
parameter set at clock reading 0 and at clock reading 1 produces different
combined height maps, because the simplex-noise generators are seeded from
`Date.now()`. -/
theorem createFractalMountains_clock_dependent :
    decide (createFractalMountains 0 (some [[0, 1]]) PLATEAUS_AND_VALLEYS =
      createFractalMountains 1 (some [[0, 1]]) PLATEAUS_AND_VALLEYS) =
        false := by
  decide

end
